import Mathlib

/-!
Verification development for the Hex dictation utility
(`src-tauri`, Rust sources).

The repository is an early skeleton: real logic exists in the device
registry (`src/audio/device.rs`), and the data models, recorder,
clipboard, transcription model types and prompt template are plain data
definitions.  Several modules are declared in `mod.rs` files but their
source files are absent (`hotkey/press_and_hold.rs`,
`refinement/refinement.rs`, the dictation controller); those parts are
modelled from the specification, and each such definition is marked
`Modelled from the spec:` in its doc comment.

Conventions of the shallow embedding:
* Rust `Result<T, E>` becomes `Except E T`.
* Rust `String` becomes Lean `String`; `i64` and `chrono` datetimes
  become `Int` (a Unix-epoch instant); PCM samples become `Int`.
* The process-global UUID v4 generator of `uuid::Uuid::new_v4` is
  modelled as a draw function `fresh : Nat → String` together with a
  draw counter threaded through each call: each call to `new_v4`
  returns `fresh k` for the current counter `k` and advances the
  counter, which captures exactly that the value is freshly generated
  per call and unrelated to any device property.
-/

/-! ## Device registry (`src/audio/device.rs`) -/

/-- Result of `cpal`'s `Device::name()`: a device whose name can be read,
or a name-read failure carrying its error message. -/
structure CpalDevice where
  name : Except String String
  deriving Repr

/-- The `cpal` host, as seen by `list_devices`: `host.input_devices()`
either yields the list of input devices or fails with an error message. -/
structure Host where
  input_devices : Except String (List CpalDevice)
  deriving Repr

/-- Audio device information (struct `AudioDevice` in `device.rs`). -/
structure AudioDevice where
  name : String
  id : String
  deriving DecidableEq, Repr

/-- The `filter_map` loop body of `list_devices`: for each cpal device,
if its name reads successfully, produce an `AudioDevice` whose `id` is the
next fresh UUID draw (`uuid::Uuid::new_v4().to_string()`), advancing the
draw counter; a device whose name read fails is skipped and draws no UUID.
Returns the collected devices together with the final draw counter. -/
def collectDevices (fresh : Nat → String) :
    List CpalDevice → Nat → List AudioDevice × Nat
  | [], k => ([], k)
  | d :: ds, k =>
    match d.name with
    | .ok n =>
      let rest := collectDevices fresh ds (k + 1)
      ({ name := n, id := fresh k } :: rest.1, rest.2)
    | .error _ => collectDevices fresh ds k

/-- Embedding of `list_devices` (`src/audio/device.rs`): queries the host
for its input devices, mapping an enumeration failure to
`"Failed to get input devices: " ++ e`; otherwise keeps exactly the
devices whose names read successfully, assigning each a freshly drawn
UUID as its `id`.  The UUID generator state (draw counter) is an explicit
argument and result. -/
def list_devices (host : Host) (fresh : Nat → String) (k : Nat) :
    Except String (List AudioDevice) × Nat :=
  match host.input_devices with
  | .error e => (.error ("Failed to get input devices: " ++ e), k)
  | .ok ds =>
    let r := collectDevices fresh ds k
    (.ok r.1, r.2)

/-- A concrete UUID supply for evaluating `list_devices`: successive
draws are pairwise distinct, as successive `Uuid::new_v4` values are. -/
def demoFresh (n : Nat) : String :=
  "uuid-" ++ toString n

/-- A host exposing one input device whose name reads as
`"Built-in Mic"`. -/
def demoHost : Host :=
  { input_devices := .ok [{ name := .ok "Built-in Mic" }] }

/-- A host exposing one input device whose name read fails. -/
def failingNameHost : Host :=
  { input_devices := .ok [{ name := .error "device name unavailable" }] }

/-- A host exposing no input devices at all. -/
def emptyHost : Host :=
  { input_devices := .ok [] }

/-! ## Data models (`src/models/`) -/

/-- Transcription data model (`src/models/transcription.rs`).  The
`chrono::DateTime<chrono::Utc>` timestamp is modelled as an `Int`
Unix-epoch instant. -/
structure Transcription where
  id : String
  text : String
  timestamp : Int
  deriving DecidableEq, Repr

/-- History entry model (`src/models/history.rs`); its `timestamp` field
is an `i64`, modelled as `Int`. -/
structure HistoryEntry where
  id : String
  text : String
  timestamp : Int
  deriving DecidableEq, Repr

/-- The field-for-field projection of a `Transcription` to a
`HistoryEntry` described by the spec (`HistoryEntry` is the persisted
projection of a `Transcription`). -/
def Transcription.toHistoryEntry (t : Transcription) : HistoryEntry :=
  { id := t.id, text := t.text, timestamp := t.timestamp }

/-- Application settings model (`src/models/settings.rs`). -/
structure AppSettings where
  recording_hotkey : String
  language : String
  deriving DecidableEq, Repr

/-! ## Clipboard (`src/clipboard/clipboard.rs`) -/

/-- Clipboard manager for text operations: a unit struct. -/
structure Clipboard where
  deriving DecidableEq, Repr

/-- Embedding of `Clipboard::new()`. -/
def Clipboard.new : Clipboard := {}

/-- Embedding of `Clipboard::copy_text(&self, _text) -> Result<(), String>`:
the body is `Ok(())` (the `arboard` call is a TODO in the source), so the
function ignores both the clipboard value and the text. -/
def Clipboard.copy_text (_c : Clipboard) (_text : String) :
    Except String Unit :=
  .ok ()

/-! ## Recorder (`src/audio/recorder.rs`) -/

/-- Opaque stand-in for `cpal::Stream` (an open hardware audio stream
handle); the recorder source never constructs one. -/
structure AudioStream where
  handle : Unit
  deriving DecidableEq, Repr

/-- Audio recorder that captures microphone input: holds
`Arc<Mutex<Option<Stream>>>`, modelled as the `Option AudioStream` slot
it guards. -/
structure Recorder where
  stream : Option AudioStream
  deriving DecidableEq, Repr

/-- Embedding of `Recorder::new()`: the stream slot starts out `None`. -/
def Recorder.new : Recorder :=
  { stream := none }

/-- Embedding of `impl Default for Recorder`: delegates to `new`. -/
def Recorder.mkDefault : Recorder :=
  Recorder.new

/-- The recorders obtainable through the public `Recorder` API of
`recorder.rs`: only `Recorder::new()` and `Recorder::default()` exist;
no method installs a stream. -/
inductive Recorder.Reachable : Recorder → Prop
  | new : Recorder.Reachable Recorder.new
  | mkDefault : Recorder.Reachable Recorder.mkDefault

/-! ## Transcription model types and engine
(`src/transcription/model.rs`, `engine.rs`) -/

/-- Transcription model types (`enum ModelType` in `model.rs`). -/
inductive ModelType
  | tiny
  | base
  | small
  | medium
  | large
  deriving DecidableEq, Repr

/-- Transcription model (`struct Model` in `model.rs`): carries exactly
its `model_type`. -/
structure Model where
  model_type : ModelType
  deriving DecidableEq, Repr

/-- Errors of the transcription contract in spec section 4.5. -/
inductive TranscribeError
  | modelNotLoaded
  | inferenceError
  deriving DecidableEq, Repr

/-- Modelled from the spec: `engine.rs` declares `TranscriptionEngine`
with no state or methods beyond `new`; spec section 4.5 specifies a
stateful wrapper around a loaded speech model.  The engine state records
which `ModelType`, if any, is loaded. -/
structure EngineState where
  loaded : Option ModelType
  deriving DecidableEq, Repr

/-- Modelled from the spec: `TranscriptionEngine::new()` — no model is
loaded initially. -/
def EngineState.new : EngineState :=
  { loaded := none }

/-- Modelled from the spec: the idempotent `ensure_loaded(model_type)`
operation of section 4.5, accepting every `ModelType` alternative
through the one capability interface. -/
def ensure_loaded (e : EngineState) (mt : ModelType) : EngineState :=
  { e with loaded := some mt }

/-- Modelled from the spec: `transcribe(buffer, language)` of section
4.5, which fails with `ModelNotLoaded | InferenceError`.  When no model
is loaded it fails with `ModelNotLoaded`; otherwise it runs the
inference oracle `infer` for the loaded model type, which may itself
fail (`none`), surfaced as `InferenceError`. -/
def transcribe (infer : ModelType → List Int → String → Option String)
    (e : EngineState) (buffer : List Int) (language : String) :
    Except TranscribeError String :=
  match e.loaded with
  | none => .error .modelNotLoaded
  | some mt =>
    match infer mt buffer language with
    | some text => .ok text
    | none => .error .inferenceError

/-! ## Refinement stage (`src/refinement/`) -/

/-- Prompt template for LLM refinement (`src/refinement/prompt.rs`). -/
structure PromptTemplate where
  system_prompt : String
  deriving DecidableEq, Repr

/-- Embedding of `PromptTemplate::new()`. -/
def PromptTemplate.new : PromptTemplate :=
  { system_prompt := "Improve the text for clarity and grammar." }

/-- Failure modes of the refinement collaborator named by the spec
(section 4.6 and the error taxonomy): network error, rate limit,
invalid response, or hitting the bounded timeout. -/
inductive RefineError
  | networkError
  | rateLimited
  | invalidResponse
  | timeout
  deriving DecidableEq, Repr

/-- Outcome of one call to the LLM refinement collaborator. -/
inductive RefineResult
  | success (improved : String)
  | failure (e : RefineError)
  deriving DecidableEq, Repr

/-- Modelled from the spec: `refinement/refinement.rs` is declared in
`refinement/mod.rs` but absent from the sources.  Spec section 4.6:
`refine(text, prompt_template)` returns the improved text when the
collaborator succeeds and returns the original text unchanged on any
failure, never propagating the error. -/
def refine (text : String) (_tpl : PromptTemplate) (r : RefineResult) :
    String :=
  match r with
  | .success improved => improved
  | .failure _ => text

/-! ## Hotkey trigger detector (`src/hotkey/`) -/

/-- Trigger intents produced by a gesture recognizer (spec glossary). -/
inductive Intent
  | start
  | stop
  | cancel
  deriving DecidableEq, Repr

/-- A raw keyboard event with its timestamp (milliseconds). -/
inductive KeyEvent
  | down (t : Nat)
  | up (t : Nat)
  deriving DecidableEq, Repr

/-- Modelled from the spec: `hotkey/press_and_hold.rs` is declared in
`hotkey/mod.rs` but absent from the sources.  The press-and-hold
recognizer of spec section 4.3 holds the configured minimum debounce
duration and the timestamp of the pending key-down, if any. -/
structure PressAndHold where
  debounce : Nat
  pressedAt : Option Nat
  deriving DecidableEq, Repr

/-- Modelled from the spec: a fresh press-and-hold recognizer with the
given debounce threshold and no key held. -/
def PressAndHold.init (debounce : Nat) : PressAndHold :=
  { debounce := debounce, pressedAt := none }

/-- Modelled from the spec: one step of the press-and-hold recognizer.
Key-down emits `Start` and records the press time; key-up with a pending
press emits `Stop` when the hold lasted at least the debounce duration
and `Cancel` otherwise; a key-up with no pending press emits nothing. -/
def PressAndHold.step (g : PressAndHold) :
    KeyEvent → PressAndHold × Option Intent
  | .down t => ({ g with pressedAt := some t }, some .start)
  | .up t =>
    match g.pressedAt with
    | some t0 =>
      ({ g with pressedAt := none },
        some (if g.debounce ≤ t - t0 then .stop else .cancel))
    | none => (g, none)

/-! ## Dictation controller (spec section 4.4)

Modelled from the spec: no controller module exists in the sources (the
orchestrator of section 4.4 is unimplemented); the state machine below
follows the transition table of sections 4.4, 5 and 7 literally.
Recording sessions are numbered by order of creation, and
`Controller.sessions` maps each session number to its
`RecordingSession` state; `Controller.emitted` records every
Transcription the controller has emitted to collaborators, as the pair
of its session number and its text. -/

/-- The `state` field of a `RecordingSession`:
Recording, Stopping, Finished or Aborted (spec section 3). -/
inductive SessionState
  | recording
  | stopping
  | finished
  | aborted
  deriving DecidableEq, Repr

/-- Modelled from the spec: the dictation controller's own state.
Active states carry the number of the session being worked on;
`refining` also carries the raw transcript so that a refinement failure
can fall back to it, and `delivering` carries the text to deliver. -/
inductive CState
  | idle
  | recording (sid : Nat)
  | transcribing (sid : Nat)
  | refining (sid : Nat) (raw : String)
  | delivering (sid : Nat) (text : String)
  | error
  deriving DecidableEq, Repr

/-- Modelled from the spec: events driving the controller — the trigger
intents of section 4.3/4.4, the asynchronous stream failure of section
4.2, and the completion callbacks of the transcription, refinement and
delivery stages. -/
inductive Event
  | start
  | stop
  | cancel
  | abort
  | streamError
  | transcribed (text : String)
  | transcribeFailed
  | refined (text : String)
  | refineFailed
  | delivered
  | errorAck
  deriving DecidableEq, Repr

/-- Modelled from the spec: the dictation controller's full state:
whether refinement is enabled, the machine state, the states of all
recording sessions created so far (session `sid` is `sessions[sid]`),
and the emitted transcriptions (session number, text). -/
structure Controller where
  refinementEnabled : Bool
  state : CState
  sessions : List SessionState
  emitted : List (Nat × String)
  deriving DecidableEq, Repr

/-- Modelled from the spec: a fresh controller in `Idle` with no
sessions and nothing emitted. -/
def Controller.init (refinementEnabled : Bool) : Controller :=
  { refinementEnabled := refinementEnabled, state := .idle,
    sessions := [], emitted := [] }

/-- Modelled from the spec: one transition of the dictation controller
(sections 4.4, 5 and 7).  `Idle + Start` opens a new session;
`Start` in any other state is dropped; `Stop` while recording hands off
to transcription; `Cancel`/`Abort` while recording aborts the session
with no transcription, and during transcription or refinement discards
the in-flight result; a stream or model failure aborts the session and
enters `Error`, which returns to `Idle` once surfaced; a non-empty
transcript goes through refinement when enabled; refinement failure
falls back to the raw transcript; delivery emits the transcription and
marks the session finished.  Every other (state, event) pair leaves the
controller unchanged. -/
def Controller.step (c : Controller) (e : Event) : Controller :=
  match c.state, e with
  | .idle, .start =>
    { c with state := .recording c.sessions.length,
             sessions := c.sessions ++ [.recording] }
  | .recording sid, .stop =>
    { c with state := .transcribing sid,
             sessions := c.sessions.set sid .stopping }
  | .recording sid, .cancel =>
    { c with state := .idle, sessions := c.sessions.set sid .aborted }
  | .recording sid, .abort =>
    { c with state := .idle, sessions := c.sessions.set sid .aborted }
  | .recording sid, .streamError =>
    { c with state := .error, sessions := c.sessions.set sid .aborted }
  | .transcribing sid, .transcribed t =>
    if t ≠ "" ∧ c.refinementEnabled = true then
      { c with state := .refining sid t }
    else
      { c with state := .delivering sid t }
  | .transcribing sid, .transcribeFailed =>
    { c with state := .error, sessions := c.sessions.set sid .aborted }
  | .transcribing sid, .cancel =>
    { c with state := .idle, sessions := c.sessions.set sid .aborted }
  | .transcribing sid, .abort =>
    { c with state := .idle, sessions := c.sessions.set sid .aborted }
  | .refining sid _, .refined t =>
    { c with state := .delivering sid t }
  | .refining sid raw, .refineFailed =>
    { c with state := .delivering sid raw }
  | .refining sid _, .cancel =>
    { c with state := .idle, sessions := c.sessions.set sid .aborted }
  | .refining sid _, .abort =>
    { c with state := .idle, sessions := c.sessions.set sid .aborted }
  | .delivering sid t, .delivered =>
    { c with state := .idle, sessions := c.sessions.set sid .finished,
             emitted := c.emitted ++ [(sid, t)] }
  | .error, .errorAck =>
    { c with state := .idle }
  | _, _ => c

/-- Modelled from the spec: run the controller over a whole event
sequence. -/
def Controller.run (c : Controller) (evs : List Event) : Controller :=
  evs.foldl Controller.step c

/-- The session number the controller is currently working on, if any. -/
def CState.activeSid : CState → Option Nat
  | .recording sid => some sid
  | .transcribing sid => some sid
  | .refining sid _ => some sid
  | .delivering sid _ => some sid
  | _ => none

/-- The `RecordingSession` state that the active session is required to
be in for each controller state: `Recording` while the controller
records, `Stopping` during the transcribe/refine/deliver pipeline. -/
def CState.activeSessState : CState → Option SessionState
  | .recording _ => some .recording
  | .transcribing _ => some .stopping
  | .refining _ _ => some .stopping
  | .delivering _ _ => some .stopping
  | _ => none

/-- The inductive invariant of the controller model:
the active session (if any) exists, is in the session state its
controller state demands, and has not been emitted; every other session
is terminal (Finished or Aborted); each session is emitted at most
once; and every emitted transcription belongs to a Finished session. -/
def Controller.Inv (c : Controller) : Prop :=
  (∀ sid, c.state.activeSid = some sid →
      c.sessions[sid]? = c.state.activeSessState ∧
      sid ∉ c.emitted.map Prod.fst) ∧
  (∀ i st, c.sessions[i]? = some st →
      c.state.activeSid = some i ∨ st = .finished ∨ st = .aborted) ∧
  (c.emitted.map Prod.fst).Nodup ∧
  (∀ p ∈ c.emitted, c.sessions[p.1]? = some SessionState.finished)

/-! ## Theorems -/

/-- The names in the devices collected by `list_devices` are exactly the
names of the cpal devices whose name read succeeded, in order: a device
with a failing name read contributes nothing at all to the result. -/
theorem collectDevices_names (fresh : Nat → String) :
    ∀ (ds : List CpalDevice) (k : Nat),
      (collectDevices fresh ds k).1.map AudioDevice.name =
        ds.filterMap (fun d => d.name.toOption)
  | [], _ => rfl
  | d :: ds, k => by
    cases hn : d.name with
    | ok n =>
      simp [collectDevices, hn, Except.toOption,
        collectDevices_names fresh ds (k + 1)]
    | error e =>
      simp [collectDevices, hn, Except.toOption,
        collectDevices_names fresh ds k]

/-- C1: two enumerations of the same one-device host assign the device
different identifiers — `list_devices` draws a fresh UUID per call
(`uuid::Uuid::new_v4`), so the id is not derived from any durable device
property and is not stable across calls within a process lifetime,
contrary to the claim; the spec itself flags this as a placeholder bug. -/
theorem list_devices_id_not_stable_across_calls :
    list_devices demoHost demoFresh 0 =
      (.ok [{ name := "Built-in Mic", id := "uuid-0" }], 1) ∧
    list_devices demoHost demoFresh 1 =
      (.ok [{ name := "Built-in Mic", id := "uuid-1" }], 2) ∧
    ("uuid-0" : String) ≠ "uuid-1" :=
  ⟨rfl, rfl, by decide⟩

/-- C6 counterexample: a host whose single device fails its name read
makes `list_devices` return `Ok` with the device silently omitted — the
result is indistinguishable from enumerating a host with no devices, so
the name-read failure has no observable outcome, contrary to the claim. -/
theorem list_devices_drops_name_failure_silently :
    (list_devices failingNameHost demoFresh 0).1 = .ok [] ∧
    list_devices failingNameHost demoFresh 0 =
      list_devices emptyHost demoFresh 0 :=
  ⟨rfl, rfl⟩

/-- C6 amended: `list_devices` returns an error exactly when the OS
input-device enumeration call fails, and when enumeration succeeds it
returns `Ok` of exactly the devices whose names read successfully — a
device whose name read fails is silently omitted, with no error return
or notification. -/
theorem list_devices_error_iff_enumeration_fails (host : Host)
    (fresh : Nat → String) (k : Nat) :
    ((∃ e, (list_devices host fresh k).1 = .error e) ↔
      (∃ e, host.input_devices = .error e)) ∧
    (∀ ds, host.input_devices = .ok ds →
      (list_devices host fresh k).1 = .ok (collectDevices fresh ds k).1 ∧
      (collectDevices fresh ds k).1.map AudioDevice.name =
        ds.filterMap (fun d => d.name.toOption)) := by
  constructor
  · cases hi : host.input_devices with
    | error e => simp [list_devices, hi]
    | ok ds => simp [list_devices, hi]
  · intro ds hds
    exact ⟨by simp [list_devices, hds], collectDevices_names fresh ds k⟩

/-- Witness for the amended C6 theorem at the failing-name host. -/
theorem list_devices_error_iff_enumeration_fails_witness :
    (list_devices failingNameHost demoFresh 0).1 =
      .ok (collectDevices demoFresh
        [{ name := .error "device name unavailable" }] 0).1 :=
  ((list_devices_error_iff_enumeration_fails failingNameHost demoFresh 0).2
    [{ name := .error "device name unavailable" }] rfl).1

/-- C7: `Transcription` and `HistoryEntry` each consist of exactly the
fields `id`, `text` and `timestamp` (every value is the tuple of those
fields), the projection `Transcription.toHistoryEntry` preserves all
three fields, and every `HistoryEntry` arises as such a projection. -/
theorem transcription_history_projection :
    (∀ t : Transcription,
        t = { id := t.id, text := t.text, timestamp := t.timestamp }) ∧
    (∀ h : HistoryEntry,
        h = { id := h.id, text := h.text, timestamp := h.timestamp }) ∧
    (∀ t : Transcription,
        t.toHistoryEntry.id = t.id ∧ t.toHistoryEntry.text = t.text ∧
        t.toHistoryEntry.timestamp = t.timestamp) ∧
    (∀ h : HistoryEntry, ∃ t : Transcription, t.toHistoryEntry = h) :=
  ⟨fun _ => rfl, fun _ => rfl, fun _ => ⟨rfl, rfl, rfl⟩,
    fun h => ⟨{ id := h.id, text := h.text, timestamp := h.timestamp }, rfl⟩⟩

/-- C8: `ModelType` is a closed tagged variant with exactly the five
alternatives Tiny, Base, Small, Medium, Large (exhaustive and pairwise
distinct); every `Model` is exactly its carried `model_type`; and the
`ensure_loaded`/`transcribe` interface dispatches every alternative:
`ensure_loaded` loads any `ModelType` and is idempotent, `transcribe`
without a loaded model fails with `ModelNotLoaded`, and after
`ensure_loaded` it runs inference for exactly the loaded variant —
succeeding with its text or failing with `InferenceError` exactly as the
variant's inference does. -/
theorem modeltype_closed_variant :
    (∀ m : ModelType, m = .tiny ∨ m = .base ∨ m = .small ∨
        m = .medium ∨ m = .large) ∧
    ([ModelType.tiny, .base, .small, .medium, .large] :
        List ModelType).Nodup ∧
    (∀ md : Model, md = { model_type := md.model_type }) ∧
    (∀ (e : EngineState) (mt : ModelType),
        (ensure_loaded e mt).loaded = some mt ∧
        ensure_loaded (ensure_loaded e mt) mt = ensure_loaded e mt) ∧
    (∀ (infer : ModelType → List Int → String → Option String)
        (buffer : List Int) (language : String),
        transcribe infer EngineState.new buffer language =
          .error .modelNotLoaded) ∧
    (∀ (infer : ModelType → List Int → String → Option String)
        (e : EngineState) (mt : ModelType) (buffer : List Int)
        (language : String),
        transcribe infer (ensure_loaded e mt) buffer language =
          (match infer mt buffer language with
            | some text => Except.ok text
            | none => Except.error TranscribeError.inferenceError)) := by
  refine ⟨fun m => ?_, by decide, fun _ => rfl, fun _ _ => ⟨rfl, rfl⟩,
    fun _ _ _ => rfl, fun _ _ _ _ _ => rfl⟩
  cases m
  · exact Or.inl rfl
  · exact Or.inr (Or.inl rfl)
  · exact Or.inr (Or.inr (Or.inl rfl))
  · exact Or.inr (Or.inr (Or.inr (Or.inl rfl)))
  · exact Or.inr (Or.inr (Or.inr (Or.inr rfl)))

/-- C9: a recorder made by `Recorder::new()` holds no open stream,
`Recorder::default()` is exactly `Recorder::new()`, and every recorder
reachable through the `Recorder` API (which offers no operation that
installs a stream) satisfies the no-open-stream predicate. -/
theorem recorder_no_open_stream :
    Recorder.new.stream = none ∧
    Recorder.mkDefault = Recorder.new ∧
    (∀ r : Recorder, Recorder.Reachable r → r.stream = none) := by
  refine ⟨rfl, rfl, fun r h => ?_⟩
  cases h <;> rfl

/-- Witness for C9 at the recorder produced by `Recorder::new()`. -/
theorem recorder_no_open_stream_witness :
    Recorder.new.stream = none :=
  recorder_no_open_stream.2.2 Recorder.new Recorder.Reachable.new

/-- C10: `Clipboard::copy_text` returns `Ok(())` for every clipboard
value and every input text, the `ClipboardError` failure case is
unreachable, and the call is observationally inert — its result does not
depend on the clipboard or the text. -/
theorem copy_text_always_ok :
    (∀ (c : Clipboard) (text : String),
        Clipboard.copy_text c text = .ok ()) ∧
    (∀ (c : Clipboard) (text e : String),
        Clipboard.copy_text c text ≠ .error e) ∧
    (∀ (c c2 : Clipboard) (t1 t2 : String),
        Clipboard.copy_text c t1 = Clipboard.copy_text c2 t2) := by
  refine ⟨fun _ _ => rfl, ?_, fun _ _ _ _ => rfl⟩
  intro c text e h
  exact Except.noConfusion h

/-- C5: the press-and-hold recognizer emits `Start` on key-down; on
key-up it emits `Stop` exactly when the hold duration reached the
debounce threshold, and `Cancel` for every hold duration strictly below
it. -/
theorem press_and_hold_debounce (d t0 t1 : Nat) :
    ((PressAndHold.init d).step (.down t0)).2 = some Intent.start ∧
    (((((PressAndHold.init d).step (.down t0)).1).step (.up t1)).2 =
        some Intent.stop ↔ d ≤ t1 - t0) ∧
    (t1 - t0 < d →
      ((((PressAndHold.init d).step (.down t0)).1).step (.up t1)).2 =
        some Intent.cancel) := by
  refine ⟨rfl, ?_, ?_⟩
  · by_cases h : d ≤ t1 - t0 <;>
      simp [PressAndHold.init, PressAndHold.step, h]
  · intro h
    have hn : ¬ d ≤ t1 - t0 := by omega
    simp [PressAndHold.init, PressAndHold.step, hn]

/-- Witness for C5: a 100 ms hold against a 300 ms debounce yields
`Cancel`. -/
theorem press_and_hold_debounce_witness :
    100 - 0 < 300 ∧
    ((((PressAndHold.init 300).step (.down 0)).1).step (.up 100)).2 =
      some Intent.cancel :=
  ⟨by decide, (press_and_hold_debounce 300 0 100).2.2 (by decide)⟩

/-- A list lookup that yields a value is within bounds. -/
theorem lt_length_of_getElem?_eq_some {α : Type} {l : List α} {i : Nat}
    {a : α} (h : l[i]? = some a) : i < l.length := by
  by_contra hc
  rw [List.getElem?_eq_none (by omega)] at h
  cases h

/-- Setting an in-bounds index makes lookup at that index yield the new
value. -/
theorem getElem?_set_self_of_lt {α : Type} {l : List α} {i : Nat} {a : α}
    (h : i < l.length) : (l.set i a)[i]? = some a := by
  rw [List.getElem?_set_self]
  simp [h]

/-- A controller state with an active session demands that session be in
`recording` or `stopping` state. -/
theorem CState.active_recording_or_stopping {st : CState} {sid : Nat}
    (h : st.activeSid = some sid) :
    st.activeSessState = some SessionState.recording ∨
    st.activeSessState = some SessionState.stopping := by
  cases st <;> simp [CState.activeSid, CState.activeSessState] at h ⊢

/-- Invariant preservation when the controller changes machine state
without touching sessions or emissions, keeping the same active session
and the same demanded session state. -/
theorem Controller.inv_retag {en : Bool} {st st2 : CState}
    {sess : List SessionState} {em : List (Nat × String)}
    (h : Controller.Inv ⟨en, st, sess, em⟩)
    (ha : st2.activeSid = st.activeSid)
    (hb : st2.activeSessState = st.activeSessState) :
    Controller.Inv ⟨en, st2, sess, em⟩ := by
  obtain ⟨h1, h2, h3, h4⟩ := h
  refine ⟨?_, ?_, h3, h4⟩
  · intro sid hsid
    rw [ha] at hsid
    rw [hb]
    exact h1 sid hsid
  · intro i stt hi
    rw [ha]
    exact h2 i stt hi

/-- Invariant preservation for `Idle + Start`: a fresh session is
appended in `recording` state and becomes the active session. -/
theorem Controller.inv_start_intent {en : Bool} {sess : List SessionState}
    {em : List (Nat × String)}
    (h : Controller.Inv ⟨en, .idle, sess, em⟩) :
    Controller.Inv
      ⟨en, .recording sess.length, sess ++ [.recording], em⟩ := by
  obtain ⟨h1, h2, h3, h4⟩ := h
  refine ⟨?_, ?_, h3, ?_⟩
  · intro sid hsid
    have hsid2 : sess.length = sid := Option.some.inj hsid
    subst hsid2
    constructor
    · rw [List.getElem?_concat_length]
      rfl
    · intro hmem
      rcases List.mem_map.mp hmem with ⟨p, hp, hp1⟩
      have hlt : p.1 < sess.length :=
        lt_length_of_getElem?_eq_some (h4 p hp)
      omega
  · intro i stt hi
    by_cases hlt : i < sess.length
    · rw [List.getElem?_append_left hlt] at hi
      rcases h2 i stt hi with hact | hterm
      · exact Option.noConfusion hact
      · exact Or.inr hterm
    · by_cases heq : i = sess.length
      · subst heq
        rw [List.getElem?_concat_length] at hi
        refine Or.inl ?_
        rfl
      · have hnone : (sess ++ [SessionState.recording])[i]? = none := by
          apply List.getElem?_eq_none
          simp only [List.length_append, List.length_singleton]
          omega
        rw [hnone] at hi
        cases hi
  · intro p hp
    have h4p := h4 p hp
    rw [List.getElem?_append_left (lt_length_of_getElem?_eq_some h4p)]
    exact h4p

/-- Invariant preservation when the controller moves its active session
to the session state demanded by the next machine state, staying active
on the same session. -/
theorem Controller.inv_set_active {en : Bool} {st st2 : CState}
    {sid : Nat} {v : SessionState} {sess : List SessionState}
    {em : List (Nat × String)}
    (h : Controller.Inv ⟨en, st, sess, em⟩)
    (ha : st.activeSid = some sid)
    (hb : st2.activeSid = some sid)
    (hc : st2.activeSessState = some v) :
    Controller.Inv ⟨en, st2, sess.set sid v, em⟩ := by
  obtain ⟨h1, h2, h3, h4⟩ := h
  obtain ⟨hsess, hnem⟩ := h1 sid ha
  have hlt : sid < sess.length := by
    rcases CState.active_recording_or_stopping ha with hs | hs <;>
      (rw [hs] at hsess; exact lt_length_of_getElem?_eq_some hsess)
  refine ⟨?_, ?_, h3, ?_⟩
  · intro s hs
    have hss : sid = s := Option.some.inj (hb.symm.trans hs)
    subst hss
    rw [hc]
    exact ⟨getElem?_set_self_of_lt hlt, hnem⟩
  · intro i stt hi
    by_cases hisid : i = sid
    · subst hisid
      exact Or.inl hb
    · rw [List.getElem?_set_ne (Ne.symm hisid)] at hi
      rcases h2 i stt hi with hact | hterm
      · exact absurd (Option.some.inj (ha.symm.trans hact)) (Ne.symm hisid)
      · exact Or.inr hterm
  · intro p hp
    have h4p := h4 p hp
    have hpne : p.1 ≠ sid := fun hcontra =>
      hnem (List.mem_map.mpr ⟨p, hp, hcontra⟩)
    rw [List.getElem?_set_ne (Ne.symm hpne)]
    exact h4p

/-- Invariant preservation when the controller aborts its active session
and deactivates (`Cancel`/`Abort`/stream or model failure). -/
theorem Controller.inv_deactivate {en : Bool} {st st2 : CState}
    {sid : Nat} {sess : List SessionState} {em : List (Nat × String)}
    (h : Controller.Inv ⟨en, st, sess, em⟩)
    (ha : st.activeSid = some sid)
    (hb : st2.activeSid = none) :
    Controller.Inv ⟨en, st2, sess.set sid .aborted, em⟩ := by
  obtain ⟨h1, h2, h3, h4⟩ := h
  obtain ⟨hsess, hnem⟩ := h1 sid ha
  have hlt : sid < sess.length := by
    rcases CState.active_recording_or_stopping ha with hs | hs <;>
      (rw [hs] at hsess; exact lt_length_of_getElem?_eq_some hsess)
  refine ⟨?_, ?_, h3, ?_⟩
  · intro s hs
    rw [hb] at hs
    cases hs
  · intro i stt hi
    by_cases hisid : i = sid
    · subst hisid
      rw [getElem?_set_self_of_lt hlt] at hi
      exact Or.inr (Or.inr (Option.some.inj hi).symm)
    · rw [List.getElem?_set_ne (Ne.symm hisid)] at hi
      rcases h2 i stt hi with hact | hterm
      · exact absurd (Option.some.inj (ha.symm.trans hact)) (Ne.symm hisid)
      · exact Or.inr hterm
  · intro p hp
    have h4p := h4 p hp
    have hpne : p.1 ≠ sid := fun hcontra =>
      hnem (List.mem_map.mpr ⟨p, hp, hcontra⟩)
    rw [List.getElem?_set_ne (Ne.symm hpne)]
    exact h4p

/-- Invariant preservation for delivery: the active session is marked
finished and its transcription is appended to the emitted list. -/
theorem Controller.inv_deliver {en : Bool} {sid : Nat} {t : String}
    {sess : List SessionState} {em : List (Nat × String)}
    (h : Controller.Inv ⟨en, .delivering sid t, sess, em⟩) :
    Controller.Inv
      ⟨en, .idle, sess.set sid .finished, em ++ [(sid, t)]⟩ := by
  obtain ⟨h1, h2, h3, h4⟩ := h
  obtain ⟨hsess, hnem⟩ := h1 sid rfl
  have hlt : sid < sess.length := lt_length_of_getElem?_eq_some hsess
  refine ⟨?_, ?_, ?_, ?_⟩
  · intro s hs
    cases hs
  · intro i stt hi
    by_cases hisid : i = sid
    · subst hisid
      rw [getElem?_set_self_of_lt hlt] at hi
      exact Or.inr (Or.inl (Option.some.inj hi).symm)
    · rw [List.getElem?_set_ne (Ne.symm hisid)] at hi
      rcases h2 i stt hi with hact | hterm
      · exact absurd (Option.some.inj hact) (Ne.symm hisid)
      · exact Or.inr hterm
  · simp [List.nodup_append, h3, hnem]
  · intro p hp
    rcases List.mem_append.mp hp with hpem | hpq
    · have h4p := h4 p hpem
      have hpne : p.1 ≠ sid := fun hcontra =>
        hnem (List.mem_map.mpr ⟨p, hpem, hcontra⟩)
      rw [List.getElem?_set_ne (Ne.symm hpne)]
      exact h4p
    · have hpq2 : p = (sid, t) := List.mem_singleton.mp hpq
      subst hpq2
      exact getElem?_set_self_of_lt hlt

/-- Every controller transition preserves the controller invariant. -/
theorem Controller.inv_step (c : Controller) (e : Event)
    (h : c.Inv) : (c.step e).Inv := by
  obtain ⟨en, st, sess, em⟩ := c
  cases st <;> cases e <;> (try exact h)
  case idle.start => exact Controller.inv_start_intent h
  case recording.stop sid => exact Controller.inv_set_active h rfl rfl rfl
  case recording.cancel sid => exact Controller.inv_deactivate h rfl rfl
  case recording.abort sid => exact Controller.inv_deactivate h rfl rfl
  case recording.streamError sid =>
    exact Controller.inv_deactivate h rfl rfl
  case transcribing.cancel sid => exact Controller.inv_deactivate h rfl rfl
  case transcribing.abort sid => exact Controller.inv_deactivate h rfl rfl
  case transcribing.transcribed sid t =>
    show Controller.Inv
      (if t ≠ "" ∧ en = true then
        (⟨en, .refining sid t, sess, em⟩ : Controller)
      else ⟨en, .delivering sid t, sess, em⟩)
    split
    · exact Controller.inv_retag h rfl rfl
    · exact Controller.inv_retag h rfl rfl
  case transcribing.transcribeFailed sid =>
    exact Controller.inv_deactivate h rfl rfl
  case refining.cancel sid raw => exact Controller.inv_deactivate h rfl rfl
  case refining.abort sid raw => exact Controller.inv_deactivate h rfl rfl
  case delivering.delivered sid t => exact Controller.inv_deliver h

/-- The fresh controller satisfies the invariant. -/
theorem Controller.inv_init (en : Bool) : (Controller.init en).Inv := by
  refine ⟨?_, ?_, ?_, ?_⟩
  · intro sid h
    cases h
  · intro i stt hi
    cases hi
  · exact List.nodup_nil
  · intro p hp
    exact absurd hp (List.not_mem_nil p)

/-- Running a controller over an appended event list runs the pieces in
sequence. -/
theorem Controller.run_append (c : Controller) (evs1 evs2 : List Event) :
    c.run (evs1 ++ evs2) = (c.run evs1).run evs2 := by
  simp [Controller.run, List.foldl_append]

/-- The invariant holds after any run from an invariant-satisfying
controller. -/
theorem Controller.inv_run (evs : List Event) :
    ∀ c : Controller, c.Inv → (c.run evs).Inv := by
  induction evs with
  | nil => exact fun c h => h
  | cons e evs ih => exact fun c h => ih (c.step e) (c.inv_step e h)

/-- Once a session is aborted, no single controller transition revives
it. -/
theorem Controller.aborted_step (c : Controller) (e : Event) (sid : Nat)
    (h : c.Inv) (ha : c.sessions[sid]? = some SessionState.aborted) :
    (c.step e).sessions[sid]? = some SessionState.aborted := by
  obtain ⟨en, st, sess, em⟩ := c
  have hactive : ∀ sid2 : Nat, st.activeSid = some sid2 → sid2 ≠ sid := by
    intro sid2 hsid2 hcontra
    subst hcontra
    have hs := (h.1 sid2 hsid2).1
    rw [ha] at hs
    rcases CState.active_recording_or_stopping hsid2 with hs2 | hs2 <;>
      (rw [hs2] at hs; cases Option.some.inj hs)
  cases st <;> cases e <;> (try exact ha)
  case idle.start =>
    exact (List.getElem?_append_left
      (lt_length_of_getElem?_eq_some ha)).trans ha
  case recording.stop sid2 =>
    exact (List.getElem?_set_ne (hactive _ rfl)).trans ha
  case recording.cancel sid2 =>
    exact (List.getElem?_set_ne (hactive _ rfl)).trans ha
  case recording.abort sid2 =>
    exact (List.getElem?_set_ne (hactive _ rfl)).trans ha
  case recording.streamError sid2 =>
    exact (List.getElem?_set_ne (hactive _ rfl)).trans ha
  case transcribing.cancel sid2 =>
    exact (List.getElem?_set_ne (hactive _ rfl)).trans ha
  case transcribing.abort sid2 =>
    exact (List.getElem?_set_ne (hactive _ rfl)).trans ha
  case transcribing.transcribed sid2 t =>
    show (if t ≠ "" ∧ en = true then
        (⟨en, .refining sid2 t, sess, em⟩ : Controller)
      else ⟨en, .delivering sid2 t, sess, em⟩).sessions[sid]? =
        some SessionState.aborted
    split <;> exact ha
  case transcribing.transcribeFailed sid2 =>
    exact (List.getElem?_set_ne (hactive _ rfl)).trans ha
  case refining.cancel sid2 raw =>
    exact (List.getElem?_set_ne (hactive _ rfl)).trans ha
  case refining.abort sid2 raw =>
    exact (List.getElem?_set_ne (hactive _ rfl)).trans ha
  case delivering.delivered sid2 t =>
    exact (List.getElem?_set_ne (hactive _ rfl)).trans ha

/-- Once a session is aborted, it stays aborted over any further event
sequence. -/
theorem Controller.aborted_run (evs : List Event) :
    ∀ (c : Controller) (sid : Nat), c.Inv →
      c.sessions[sid]? = some SessionState.aborted →
      (c.run evs).sessions[sid]? = some SessionState.aborted := by
  induction evs with
  | nil => exact fun c sid _ ha => ha
  | cons e evs ih =>
    exact fun c sid h ha =>
      ih (c.step e) sid (c.inv_step e h) (c.aborted_step e sid h ha)

/-- C3: over every event sequence fed to the dictation controller, any
two sessions found in `Recording` state coincide (at most one recording
session at any instant), and a `Start` intent received while the
controller is not `Idle` leaves it completely unchanged — it is dropped
and opens no second capture session. -/
theorem at_most_one_recording_session :
    (∀ (en : Bool) (evs : List Event) (i j : Nat),
        ((Controller.init en).run evs).sessions[i]? =
          some SessionState.recording →
        ((Controller.init en).run evs).sessions[j]? =
          some SessionState.recording → i = j) ∧
    (∀ c : Controller, c.state ≠ .idle → c.step .start = c) := by
  constructor
  · intro en evs i j hi hj
    have hInv :=
      Controller.inv_run evs (Controller.init en) (Controller.inv_init en)
    have hi2 := hInv.2.1 i _ hi
    have hj2 := hInv.2.1 j _ hj
    rcases hi2 with hi2 | hi2 | hi2
    · rcases hj2 with hj2 | hj2 | hj2
      · exact Option.some.inj (hi2.symm.trans hj2)
      · cases hj2
      · cases hj2
    · cases hi2
    · cases hi2
  · intro c hc
    obtain ⟨en, st, sess, em⟩ := c
    cases st
    · exact absurd rfl hc
    all_goals rfl

/-- Witness for C3: after one `Start` the single session 0 records, and
a second `Start` is dropped. -/
theorem at_most_one_recording_session_witness :
    (0 : Nat) = 0 ∧
    ((Controller.init true).run [Event.start]).step .start =
      (Controller.init true).run [Event.start] :=
  ⟨at_most_one_recording_session.1 true [Event.start] 0 0 (by decide)
      (by decide),
    at_most_one_recording_session.2 ((Controller.init true).run
      [Event.start]) (by decide)⟩

/-- C4: every emitted transcription belongs to a session that reached
`Finished` (never `Aborted`), each session has at most one transcription
emitted, and after a `Cancel` or `Abort` intent arrives while a session
is recording, no transcription for that session is ever emitted, however
the event sequence continues. -/
theorem no_transcription_for_aborted_sessions :
    (∀ (en : Bool) (evs : List Event),
        (((Controller.init en).run evs).emitted.map Prod.fst).Nodup ∧
        (∀ p ∈ ((Controller.init en).run evs).emitted,
            ((Controller.init en).run evs).sessions[p.1]? =
              some SessionState.finished)) ∧
    (∀ (en : Bool) (evs rest : List Event) (ev : Event) (sid : Nat),
        ev = Event.cancel ∨ ev = Event.abort →
        ((Controller.init en).run evs).state = .recording sid →
        sid ∉ ((Controller.init en).run
          (evs ++ ev :: rest)).emitted.map Prod.fst) := by
  constructor
  · intro en evs
    have hInv :=
      Controller.inv_run evs (Controller.init en) (Controller.inv_init en)
    exact ⟨hInv.2.2.1, hInv.2.2.2⟩
  · intro en evs rest ev sid hev hst
    have hInv :=
      Controller.inv_run evs (Controller.init en) (Controller.inv_init en)
    have key : ∀ c : Controller, c.Inv → c.state = .recording sid →
        (c.step ev).sessions[sid]? = some SessionState.aborted := by
      intro c hc hst2
      obtain ⟨en1, st1, sess1, em1⟩ := c
      cases hst2
      have hlt : sid < sess1.length :=
        lt_length_of_getElem?_eq_some (hc.1 sid rfl).1
      rcases hev with hev | hev <;> subst hev <;>
        exact getElem?_set_self_of_lt hlt
    have hab := key _ hInv hst
    have hinv2 :=
      Controller.inv_step ((Controller.init en).run evs) ev hInv
    have habr := Controller.aborted_run rest _ sid hinv2 hab
    have hrun : (Controller.init en).run (evs ++ ev :: rest) =
        ((((Controller.init en).run evs).step ev).run rest) := by
      rw [Controller.run_append]
      rfl
    rw [hrun]
    intro hmem
    rcases List.mem_map.mp hmem with ⟨p, hp, hp1⟩
    have hfin := (Controller.inv_run rest _ hinv2).2.2.2 p hp
    rw [hp1] at hfin
    rw [habr] at hfin
    cases Option.some.inj hfin

/-- Witness for C4: session 0 is cancelled while recording; a later full
trip (session 1) delivers, yet no transcription for session 0 appears. -/
theorem no_transcription_for_aborted_sessions_witness :
    (0 : Nat) ∉ (((Controller.init true).run
      ([Event.start] ++ Event.cancel ::
        [Event.start, Event.stop, Event.transcribed "hi",
          Event.refined "Hi there", Event.delivered])).emitted.map
      Prod.fst) :=
  no_transcription_for_aborted_sessions.2 true [Event.start]
    [Event.start, Event.stop, Event.transcribed "hi",
      Event.refined "Hi there", Event.delivered]
    Event.cancel 0 (Or.inl rfl) (by decide)

/-- C2: on any refinement failure `refine` returns the original text
unchanged; a controller in `Refining` moves to `Delivering` with the raw
transcript on `refineFailed` and then emits exactly that transcript; and
no `refineFailed` event ever moves the controller into the `Error`
state. -/
theorem refinement_failure_preserves_transcript :
    (∀ (text : String) (tpl : PromptTemplate) (e : RefineError),
        refine text tpl (.failure e) = text) ∧
    (∀ (c : Controller) (sid : Nat) (raw : String),
        c.state = .refining sid raw →
        (c.step .refineFailed).state = .delivering sid raw ∧
        ((c.step .refineFailed).step .delivered).emitted =
          c.emitted ++ [(sid, raw)]) ∧
    (∀ c : Controller, c.state ≠ .error →
        (c.step .refineFailed).state ≠ .error) := by
  refine ⟨fun _ _ _ => rfl, ?_, ?_⟩
  · rintro ⟨en, st, sess, em⟩ sid raw h
    cases h
    exact ⟨rfl, rfl⟩
  · rintro ⟨en, st, sess, em⟩ h
    cases st <;> simp_all [Controller.step]

/-- Witness for C2 at a controller refining session 0 with raw
transcript "hello world". -/
theorem refinement_failure_preserves_transcript_witness :
    refine "hello world" PromptTemplate.new (.failure .timeout) =
      "hello world" ∧
    ((Controller.mk true (.refining 0 "hello world") [.stopping] []).step
        .refineFailed).state = .delivering 0 "hello world" :=
  ⟨refinement_failure_preserves_transcript.1 "hello world"
      PromptTemplate.new .timeout,
    (refinement_failure_preserves_transcript.2.1
      (Controller.mk true (.refining 0 "hello world") [.stopping] [])
      0 "hello world" rfl).1⟩
